import Mathlib

/-!
# PUFA-Check core: shallow embedding and verification

This file embeds the core of the PUFA-Check application (src/App.tsx): the
PUFA classifier `analyzePufa`, the OpenFoodFacts response parsers
(`parseOffV2`, `parseOffV0`, `mapBasicNutriments`), the multi-endpoint
lookup loop of `enrichItemWithOpenFoodFacts`, and the history store
operations of the `useHistory` hook (`add`, `update`, `toggleFavorite`,
`remove`, `persist`).

Modelling conventions:
* JavaScript numbers are modelled as `Rat` (the classifier thresholds 4 and
  10 and the kJ→kcal factor 4.184 are exact in `Rat`; no claim depends on
  floating-point rounding).
* `undefined` / absent fields are modelled with `Option`; a JSON value is a
  `JsonVal`; JavaScript truthiness is `JsonVal.truthy`.
* The asynchronous store is embedded as explicit state passing: an
  operation maps the current in-memory list to the new list.  Network I/O
  is an oracle `net : Nat → EpResult` giving, for the i-th HTTP request
  issued, either a transport/timeout/JSON failure or a parsed JSON body.
-/

namespace PufaCheck

/-- Risk tier: the `pufaFlag` field of `HistoryItem` in src/App.tsx. -/
inductive Flag
  | unknown
  | low
  | medium
  | high
deriving DecidableEq, Repr

/-- The `lookupStatus` field of `HistoryItem` in src/App.tsx. -/
inductive LookupStatus
  | pending
  | found
  | not_found
  | error
deriving DecidableEq, Repr

/-- Does the character list `n` start the character list `h`?  Executable
prefix test used to embed JavaScript `String.prototype.includes`. -/
def listStartsWith : List Char → List Char → Bool
  | [], _ => true
  | _ :: _, [] => false
  | a :: n, b :: h => a == b && listStartsWith n h

/-- Does `needle` occur as a contiguous substring of `hay`?  Embedding of
JavaScript `hay.includes(needle)` on the character-list level. -/
def listIncludes (needle : List Char) : List Char → Bool
  | [] => listStartsWith needle []
  | c :: t => listStartsWith needle (c :: t) || listIncludes needle t

/-- Embedding of the JavaScript call `hay.includes(needle)`. -/
def strIncludes (hay needle : String) : Bool :=
  listIncludes needle.toList hay.toList


/-- Embedding of `String.prototype.toLowerCase` as used on ingredient
text (character-wise lower-casing). -/
def strToLower (s : String) : String := ⟨s.toList.map Char.toLower⟩

/-- The fixed seed-oil keyword list of `analyzePufa` (src/App.tsx). -/
def seedOilKeywords : List String :=
  ["canola oil", "rapeseed oil", "soybean oil", "soy oil", "corn oil",
   "sunflower oil", "safflower oil", "cottonseed oil", "grapeseed oil",
   "rice bran oil", "vegetable oil", "mixed vegetable oils"]

/-- Result of `analyzePufa`: `{ flag, matchedSeedOils }`. -/
structure PufaAnalysis where
  flag : Flag
  matchedSeedOils : List String
deriving DecidableEq, Repr

/-- Shallow embedding of `analyzePufa(ingredientsText?, polyFatPer100g?)`
(src/App.tsx).  `typeof polyFatPer100g === 'number'` is the `some` case of
the `Option Rat` argument. -/
def analyzePufa (ingredientsText : Option String) (polyFatPer100g : Option Rat) :
    PufaAnalysis :=
  let normalized := strToLower (ingredientsText.getD "")
  let matchedSeedOils := seedOilKeywords.filter (fun k => strIncludes normalized k)
  let flag : Flag :=
    match polyFatPer100g with
    | some v =>
        if v ≥ 10 then .high
        else if v ≥ 4 then .medium
        else if matchedSeedOils.length > 0 then .high
        else .low
    | none =>
        if matchedSeedOils.length > 0 then .high
        else if strIncludes normalized "olive oil" || strIncludes normalized "butter"
            || strIncludes normalized "avocado oil" then .low
        else .unknown
  ⟨flag, matchedSeedOils⟩

/-- Reference classifier written from the specification's words (spec §4.2,
claim C1): matched terms are the keywords of the fixed list occurring as a
substring of the lower-cased text in keyword-list order; the tier follows
the documented thresholds with inclusive boundaries 10 and 4, the
seed-oil-match override below 4, and the olive-oil/butter/avocado fallback
when no numeric value is given. -/
def analyzePufaSpecRef (t : Option String) (v : Option Rat) : PufaAnalysis :=
  let lower := strToLower (t.getD "")
  let matchedTerms :=
    seedOilKeywords.filter (fun k => decide (k.toList <:+: lower.toList))
  let tier : Flag :=
    match v with
    | some x =>
        if x ≥ 10 then .high
        else if x ≥ 4 then .medium
        else if matchedTerms ≠ [] then .high
        else .low
    | none =>
        if matchedTerms ≠ [] then .high
        else if decide (("olive oil" : String).toList <:+: lower.toList
              ∨ ("butter" : String).toList <:+: lower.toList
              ∨ ("avocado oil" : String).toList <:+: lower.toList) then .low
        else .unknown
  ⟨tier, matchedTerms⟩


/-! ## JSON values and JavaScript truthiness -/

/-- A decoded JSON body as produced by `res.json()`. -/
inductive JsonVal
  | null
  | bool (b : Bool)
  | num (q : Rat)
  | str (s : String)
  | arr (elems : List JsonVal)
  | obj (fields : List (String × JsonVal))

/-- Property access `x?.[key]` / `x.key`: `none` (JavaScript `undefined`)
when the value is not an object or lacks the key. -/
def JsonVal.get : JsonVal → String → Option JsonVal
  | .obj fields, key => List.lookup key fields
  | _, _ => none

/-- JavaScript truthiness of a JSON value (`NaN` is not representable in
`Rat` and cannot be produced by JSON decoding). -/
def JsonVal.truthy : JsonVal → Bool
  | .null => false
  | .bool b => b
  | .num q => !(q == 0)
  | .str s => !(s == "")
  | .arr _ => true
  | .obj _ => true

/-- Truthiness of a possibly-`undefined` JSON value. -/
def jsTruthy : Option JsonVal → Bool
  | none => false
  | some j => j.truthy

/-! ## Nutrient mapping (`mapBasicNutriments`) -/

/-- A `{ value?: number; unit?: string }` per-nutrient entry (`UnitValue`
in src/App.tsx). -/
structure UnitValue where
  value : Option Rat
  unit : Option String
deriving DecidableEq, Repr

/-- The `pick` helper inside `mapBasicNutriments`: reads `` `${key}_100g` ``
(kept only when it is a number) and `` `${key}_unit` `` (kept only when it
is a string); `undefined` when both are missing. -/
def pickNutri (off : JsonVal) (key : String) : Option UnitValue :=
  let value : Option Rat :=
    match off.get (key ++ "_100g") with
    | some (.num q) => some q
    | _ => none
  let unit : Option String :=
    match off.get (key ++ "_unit") with
    | some (.str s) => some s
    | _ => none
  match value, unit with
  | none, none => none
  | _, _ => some ⟨value, unit⟩

/-- The `energyKcal` IIFE inside `mapBasicNutriments`: prefers
`energy-kcal_100g`, otherwise converts `energy-kj_100g` with the factor
4.184 (exact in `Rat`). -/
def energyKcalNutri (off : JsonVal) : Option UnitValue :=
  let kcal : Option Rat :=
    match off.get "energy-kcal_100g" with
    | some (.num q) => some q
    | _ => none
  let kj : Option Rat :=
    match off.get "energy-kj_100g" with
    | some (.num q) => some q
    | _ => none
  let value : Option Rat :=
    match kcal with
    | some q => some q
    | none => kj.map (fun q => q / ((4184 : Rat) / 1000))
  match value with
  | none => none
  | some q => some ⟨some q, some "kcal"⟩

/-- Embedding of `mapBasicNutriments(off)`.  The result models the
JavaScript object literal returned by the source: a fixed association list
of 12 keys whose values may each be `undefined`.  `Object.keys` of that
literal is the list of the 12 keys, whatever the values are. -/
def mapBasicNutriments (off : Option JsonVal) : Option (List (String × Option UnitValue)) :=
  match off with
  | none => none
  | some j =>
      if !j.truthy then none
      else
        some [("energyKcal", energyKcalNutri j),
              ("fat", pickNutri j "fat"),
              ("saturatedFat", pickNutri j "saturated-fat"),
              ("monounsaturatedFat", pickNutri j "monounsaturated-fat"),
              ("polyunsaturatedFat", pickNutri j "polyunsaturated-fat"),
              ("transFat", pickNutri j "trans-fat"),
              ("carbohydrates", pickNutri j "carbohydrates"),
              ("sugars", pickNutri j "sugars"),
              ("fiber", pickNutri j "fiber"),
              ("proteins", pickNutri j "proteins"),
              ("salt", pickNutri j "salt"),
              ("sodium", pickNutri j "sodium")]

/-! ## Response parsers (`parseOffV2`, `parseOffV0`) -/

/-- Parser result `{ name?, ingredientsText?, polyFatPer100g?, nutriments? }`.
The first three fields hold the raw JSON field values (the source performs
its `typeof` checks only at the use sites). -/
structure ParsedProduct where
  name : Option JsonVal
  ingredientsText : Option JsonVal
  polyFatPer100g : Option JsonVal
  nutriments : Option (List (String × Option UnitValue))

/-- Embedding of `parseOffV2(json)`: rejects `status === 0` and a falsy
`product`; otherwise extracts the fields and requires `hasData`. -/
def parseOffV2 (json : JsonVal) : Option ParsedProduct :=
  let statusIsZero : Bool :=
    match json.get "status" with
    | some (.num q) => q == 0
    | _ => false
  if statusIsZero then none
  else
    match json.get "product" with
    | none => none
    | some product =>
        if !product.truthy then none
        else
          let name := product.get "product_name"
          let ingredientsText :=
            if jsTruthy (product.get "ingredients_text_en") then
              product.get "ingredients_text_en"
            else product.get "ingredients_text"
          let nutriments := mapBasicNutriments (product.get "nutriments")
          let polyFatPer100g :=
            (product.get "nutriments").bind (fun n => n.get "polyunsaturated-fat_100g")
          let hasData := jsTruthy name || jsTruthy ingredientsText ||
            (match nutriments with
             | some l => decide (0 < l.length)
             | none => false)
          if !hasData then none
          else some ⟨name, ingredientsText, polyFatPer100g, nutriments⟩

/-- Embedding of `parseOffV0(json)`: rejects a falsy `product` or
`status !== 1`; otherwise extracts the fields and requires `hasData`. -/
def parseOffV0 (json : JsonVal) : Option ParsedProduct :=
  let statusIsOne : Bool :=
    match json.get "status" with
    | some (.num q) => q == 1
    | _ => false
  match json.get "product" with
  | none => none
  | some product =>
      if !product.truthy || !statusIsOne then none
      else
        let name := product.get "product_name"
        let ingredientsText :=
          if jsTruthy (product.get "ingredients_text_en") then
            product.get "ingredients_text_en"
          else product.get "ingredients_text"
        let nutriments := mapBasicNutriments (product.get "nutriments")
        let polyFatPer100g :=
          (product.get "nutriments").bind (fun n => n.get "polyunsaturated-fat_100g")
        let hasData := jsTruthy name || jsTruthy ingredientsText ||
          (match nutriments with
           | some l => decide (0 < l.length)
           | none => false)
        if !hasData then none
        else some ⟨name, ingredientsText, polyFatPer100g, nutriments⟩

/-! ## Endpoint fallback loop of `enrichItemWithOpenFoodFacts` -/

/-- One endpoint descriptor of the `endpoints` array: its parser and its
`source` identifier.  (The URL template does not influence the modelled
behavior: the network oracle is indexed by the request position.) -/
structure Endpoint where
  parse : JsonVal → Option ParsedProduct
  source : String

/-- The configured endpoint list, in source order. -/
def endpoints : List Endpoint :=
  [⟨parseOffV2, "OFF v2 world"⟩,
   ⟨parseOffV2, "OFF v2 us"⟩,
   ⟨parseOffV0, "OFF v0 world"⟩,
   ⟨parseOffV0, "OFF v0 us"⟩]

/-- Outcome of one `fetchJsonWithTimeout` call: `failed` for a timeout
(abort), transport error or JSON-decoding exception — all caught by the
per-endpoint `try`/`catch` — or a decoded JSON body. -/
inductive EpResult
  | failed
  | responded (body : JsonVal)

/-- Embedding of the `for (const ep of endpoints)` loop: walks the
endpoints in order, issues one request per endpoint (`net i` is the answer
to the request for the endpoint at absolute position `i`), skips failures
and unusable parses, and breaks at the first usable parse.  Returns the
result (with the winning endpoint's source id) and the list of positions
to which a request was issued, in order. -/
def lookupFrom (net : Nat → EpResult) :
    List Endpoint → Nat → Option (ParsedProduct × String) × List Nat
  | [], _ => (none, [])
  | ep :: rest, i =>
    match net i with
    | .failed =>
        let r := lookupFrom net rest (i + 1)
        (r.1, i :: r.2)
    | .responded body =>
        match ep.parse body with
        | some p => (some (p, ep.source), [i])
        | none =>
            let r := lookupFrom net rest (i + 1)
            (r.1, i :: r.2)

/-- Specification view of one endpoint attempt: the data it yields under
oracle `net`, or `none` when it fails or parses to nothing usable. -/
def attemptResult (net : Nat → EpResult) (i : Nat) (ep : Endpoint) :
    Option (ParsedProduct × String) :=
  match net i with
  | .failed => none
  | .responded body => (ep.parse body).map (fun p => (p, ep.source))

/-- Specification view of the whole lookup: the absolute position and data
of the first usable endpoint, scanning in list order. -/
def firstUsable (net : Nat → EpResult) :
    List Endpoint → Nat → Option (Nat × ParsedProduct × String)
  | [], _ => none
  | ep :: rest, i =>
    match attemptResult net i ep with
    | some (p, s) => some (i, p, s)
    | none => firstUsable net rest (i + 1)

/-! ## History records and the `useHistory` store -/

/-- A `HistoryItem` record (src/App.tsx).  Optional fields are `Option`;
`scannedAt` is an epoch-milliseconds integer. -/
structure HistoryItem where
  id : String
  name : Option String
  barcodeData : Option String
  scannedAt : Int
  isFavorite : Option Bool
  pufaFlag : Option Flag
  ingredients : Option String
  polyunsaturatedFatPer100g : Option Rat
  matchedSeedOils : Option (List String)
  nutriments : Option (List (String × Option UnitValue))
  lookupStatus : Option LookupStatus
  lookupSource : Option String
deriving DecidableEq, Repr

/-- A `Partial<HistoryItem>` object literal.  The outer `Option` records
whether the key is present in the literal (a present key overwrites on
spread, even with an `undefined` value); the inner type is the field's
type in `HistoryItem`. -/
structure Changes where
  id : Option String
  name : Option (Option String)
  barcodeData : Option (Option String)
  scannedAt : Option Int
  isFavorite : Option (Option Bool)
  pufaFlag : Option (Option Flag)
  ingredients : Option (Option String)
  polyunsaturatedFatPer100g : Option (Option Rat)
  matchedSeedOils : Option (Option (List String))
  nutriments : Option (Option (List (String × Option UnitValue)))
  lookupStatus : Option (Option LookupStatus)
  lookupSource : Option (Option String)
deriving DecidableEq, Repr

/-- The empty `Partial<HistoryItem>`: no keys present. -/
def emptyChanges : Changes :=
  ⟨none, none, none, none, none, none, none, none, none, none, none, none⟩

/-- JavaScript spread merge `{...h, ...c}`: keys present in `c` overwrite,
keys absent from `c` keep `h`'s value. -/
def applyChanges (h : HistoryItem) (c : Changes) : HistoryItem where
  id := c.id.getD h.id
  name := c.name.getD h.name
  barcodeData := c.barcodeData.getD h.barcodeData
  scannedAt := c.scannedAt.getD h.scannedAt
  isFavorite := c.isFavorite.getD h.isFavorite
  pufaFlag := c.pufaFlag.getD h.pufaFlag
  ingredients := c.ingredients.getD h.ingredients
  polyunsaturatedFatPer100g := c.polyunsaturatedFatPer100g.getD h.polyunsaturatedFatPer100g
  matchedSeedOils := c.matchedSeedOils.getD h.matchedSeedOils
  nutriments := c.nutriments.getD h.nutriments
  lookupStatus := c.lookupStatus.getD h.lookupStatus
  lookupSource := c.lookupSource.getD h.lookupSource

/-- Embedding of `add` from `useHistory`: `[item, ...history].slice(0, 200)`. -/
def addItems (item : HistoryItem) (history : List HistoryItem) : List HistoryItem :=
  (item :: history).take 200

/-- Embedding of `toggleFavorite` from `useHistory`: flips `isFavorite` on every record
whose id matches (`!undefined` is `true`). -/
def toggleItems (id : String) (history : List HistoryItem) : List HistoryItem :=
  history.map (fun h =>
    if h.id == id then { h with isFavorite := some (!(h.isFavorite.getD false)) } else h)

/-- Embedding of `remove` from `useHistory`: `history.filter(h => h.id !== id)`. -/
def removeItems (id : String) (history : List HistoryItem) : List HistoryItem :=
  history.filter (fun h => !(h.id == id))

/-- Embedding of `update` from `useHistory`: merges `changes` into every record whose id
matches and returns the new list together with
`items.find(h => h.id === id)` evaluated on the new list. -/
def updateItems (id : String) (changes : Changes) (history : List HistoryItem) :
    List HistoryItem × Option HistoryItem :=
  let items := history.map (fun h => if h.id == id then applyChanges h changes else h)
  (items, items.find? (fun h => h.id == id))

/-! ## Persistence (`persist` of `useHistory`) -/

/-- The two sides of the store plus its log: the React in-memory state, the
last successfully persisted AsyncStorage contents, and the number of
`console.warn` messages emitted so far. -/
structure StoreSys where
  memory : List HistoryItem
  storage : List HistoryItem
  warnings : Nat
deriving DecidableEq, Repr

/-- Embedding of `persist(items)`: `setHistory(items)` first (optimistic
in-memory update), then `AsyncStorage.setItem` inside `try`/`catch`.  `ok`
says whether the durable write succeeds; a failure is caught and logged
with `console.warn`.  The second component is the error surfaced to the
awaiting caller — the `catch` swallows the exception, so it is always
`none`. -/
def persistOp (ok : Bool) (items : List HistoryItem) (st : StoreSys) :
    StoreSys × Option String :=
  let st1 : StoreSys := { st with memory := items }
  if ok then ({ st1 with storage := items }, none)
  else ({ st1 with warnings := st1.warnings + 1 }, none)

/-- The operation `add` as a full store operation (in-memory change plus persistence). -/
def addOp (ok : Bool) (item : HistoryItem) (st : StoreSys) : StoreSys × Option String :=
  persistOp ok (addItems item st.memory) st

/-- The operation `toggleFavorite` as a full store operation. -/
def toggleOp (ok : Bool) (id : String) (st : StoreSys) : StoreSys × Option String :=
  persistOp ok (toggleItems id st.memory) st

/-- The operation `remove` as a full store operation. -/
def removeOp (ok : Bool) (id : String) (st : StoreSys) : StoreSys × Option String :=
  persistOp ok (removeItems id st.memory) st

/-- The operation `update` as a full store operation. -/
def updateOp (ok : Bool) (id : String) (c : Changes) (st : StoreSys) : StoreSys × Option String :=
  persistOp ok (updateItems id c st.memory).1 st

/-! ## Enrichment (`enrichItemWithOpenFoodFacts`) -/

/-- JavaScript truthiness of an optional string (absent or `''` is falsy). -/
def strTruthy : Option String → Bool
  | none => false
  | some s => !(s == "")

/-- The `typeof x === 'number'` coercion applied to a raw JSON field. -/
def jsAsNum : Option JsonVal → Option Rat
  | some (.num q) => some q
  | _ => none

/-- Reading a raw JSON text field as a string.  (A truthy non-string value
in a `string`-typed field would be ill-typed at runtime in the original;
such responses are modelled as absent and no claim relies on them.) -/
def jsAsStr : Option JsonVal → Option String
  | some (.str s) => some s
  | _ => none

/-- Evaluation of `raw || fallback` for a JSON text field with a string fallback. -/
def jsOrStr (raw : Option JsonVal) (fallback : Option String) : Option String :=
  if jsTruthy raw then jsAsStr raw else fallback

/-- Result of one enrichment attempt: the store it leaves behind, the
record it returns to its caller, and the positions of the network requests
it issued, in order. -/
structure EnrichOutcome where
  store : List HistoryItem
  returned : Option HistoryItem
  requests : List Nat
deriving Repr

/-- The literal `{lookupStatus: 'pending'}` passed to `update` at the
start of an enrichment attempt. -/
def pendingChange : Changes :=
  { emptyChanges with lookupStatus := some (some .pending) }

/-- The literal `{lookupStatus: 'not_found'}` passed to `update` when no
endpoint yields usable data. -/
def notFoundChange : Changes :=
  { emptyChanges with lookupStatus := some (some .not_found) }

/-- The `updated` object literal built in the success branch of
`enrichItemWithOpenFoodFacts` for product `productData` won from
`sourceUsed`: every listed key is present (some with possibly-`undefined`
values), all other keys are absent. -/
def foundChanges (item : HistoryItem) (productData : ParsedProduct)
    (sourceUsed : String) : Changes :=
  let name := productData.name
  let ingredientsText := productData.ingredientsText
  let polyFat := productData.polyFatPer100g
  let analysis := analyzePufa (jsAsStr ingredientsText) (jsAsNum polyFat)
  { emptyChanges with
      name := some (jsOrStr name item.name),
      ingredients := some (jsOrStr ingredientsText item.ingredients),
      polyunsaturatedFatPer100g := some (match jsAsNum polyFat with
        | some q => some q
        | none => item.polyunsaturatedFatPer100g),
      pufaFlag := some (some analysis.flag),
      matchedSeedOils := some (some analysis.matchedSeedOils),
      lookupStatus := some (some .found),
      lookupSource := some (some sourceUsed),
      nutriments := some (match productData.nutriments with
        | some n => some n
        | none => item.nutriments) }

/-- Embedding of `enrichItemWithOpenFoodFacts(item)` acting on history
`s`.  Early-returns on a falsy `barcodeData`; otherwise marks the record
`pending`, runs the endpoint fallback loop, and either records `not_found`
or merges the parsed product, the classification and the winning source id
with status `found`.  (Durable-write outcomes do not affect the in-memory
list; they are modelled by `persistOp`.) -/
def enrich (net : Nat → EpResult) (item : HistoryItem) (s : List HistoryItem) :
    EnrichOutcome :=
  if !(strTruthy item.barcodeData) then ⟨s, none, []⟩
  else
    let s1 := (updateItems item.id pendingChange s).1
    let r := lookupFrom net endpoints 0
    match r.1 with
    | none =>
        let u := updateItems item.id notFoundChange s1
        ⟨u.1, u.2, r.2⟩
    | some (productData, sourceUsed) =>
        let u := updateItems item.id (foundChanges item productData sourceUsed) s1
        ⟨u.1, u.2, r.2⟩

/-! ## The scan handler -/

/-- The record built by the `onScanned` handler of `ScanScreen` in `App`:
id is the barcode value (`barcode.data || String(Date.now())`), flag
`unknown`, status `pending`. -/
def scanItem (data : String) (now : Int) : HistoryItem where
  id := if data == "" then toString now else data
  name := none
  barcodeData := some data
  scannedAt := now
  isFavorite := none
  pufaFlag := some .unknown
  ingredients := none
  polyunsaturatedFatPer100g := none
  matchedSeedOils := none
  nutriments := none
  lookupStatus := some .pending
  lookupSource := none

/-- The `onScanned` handler: build the item, `add` it, then run the
enrichment attempt (sequential-state embedding: each store operation reads
the state left by the previous one). -/
def onScanned (net : Nat → EpResult) (data : String) (now : Int)
    (s : List HistoryItem) : List HistoryItem :=
  let s1 := addItems (scanItem data now) s
  (enrich net (scanItem data now) s1).store

/-! ## Concrete inputs used in witnesses and counterexamples -/

/-- A minimal record with the given id and every optional field absent. -/
def baseItem (id : String) : HistoryItem :=
  ⟨id, none, none, 0, none, none, none, none, none, none, none, none⟩

/-- The `Partial<HistoryItem>` literal `{name: 'N'}`. -/
def nameChange : Changes := { emptyChanges with name := some (some "N") }

/-- The `Partial<HistoryItem>` literal `{id: 'b'}`. -/
def idChange : Changes := { emptyChanges with id := some "b" }

/-- The raw response body `{"product": {"nutriments": {}}}`. -/
def emptyNutrimentsBody : JsonVal :=
  .obj [("product", .obj [("nutriments", .obj [])])]

/-- The raw response body `{"status": 1, "product": {"nutriments": {}}}`. -/
def emptyNutrimentsBodyV0 : JsonVal :=
  .obj [("status", .num 1), ("product", .obj [("nutriments", .obj [])])]

/-- A usable v2 body: `{"product": {"product_name": "Test Oil"}}`. -/
def okBody : JsonVal := .obj [("product", .obj [("product_name", .str "Test Oil")])]

/-- A network oracle under which every request fails. -/
def netFail : Nat → EpResult := fun _ => .failed

/-- A network oracle under which the first request times out and the
second returns a usable body. -/
def net01 : Nat → EpResult := fun i => if i == 1 then .responded okBody else .failed


/-! ## Correctness of the substring test and the classifier -/

theorem listStartsWith_iff : ∀ n h : List Char, listStartsWith n h = true ↔ n <+: h
  | [], h => by simp [listStartsWith]
  | _ :: _, [] => by simp [listStartsWith]
  | a :: n, b :: h => by
      simp only [listStartsWith, Bool.and_eq_true, beq_iff_eq,
        List.cons_prefix_cons, listStartsWith_iff n h]

theorem listIncludes_iff : ∀ n h : List Char, listIncludes n h = true ↔ n <:+: h
  | n, [] => by
      simp [listIncludes, listStartsWith_iff, List.infix_nil, List.prefix_nil]
  | n, c :: t => by
      simp [listIncludes, listStartsWith_iff, listIncludes_iff n t,
        List.infix_cons_iff]

theorem strIncludes_iff (hay needle : String) :
    strIncludes hay needle = true ↔ needle.toList <:+: hay.toList :=
  listIncludes_iff needle.toList hay.toList

theorem strIncludes_eq_decide (hay needle : String) :
    strIncludes hay needle = decide (needle.toList <:+: hay.toList) := by
  by_cases h : needle.toList <:+: hay.toList
  · rw [(strIncludes_iff hay needle).2 h, decide_eq_true h]
  · rw [decide_eq_false h, ← Bool.not_eq_true]
    intro hc
    exact h ((strIncludes_iff hay needle).1 hc)

/-- C1: `analyzePufa` returns exactly the reference result described by the
specification: the matched terms are the subset of the fixed 12-keyword
seed-oil list occurring as a substring of the lower-cased text in
keyword-list order (a sublist of the keyword list), and the tier follows
the documented decision procedure with inclusive boundaries at 4 and 10. -/
theorem analyzePufa_matches_reference (t : Option String) (v : Option Rat) :
    analyzePufa t v = analyzePufaSpecRef t v ∧
    (analyzePufa t v).matchedSeedOils.Sublist seedOilKeywords := by
  have hm : seedOilKeywords.filter (fun k => strIncludes (strToLower (t.getD "")) k)
      = seedOilKeywords.filter
          (fun k => decide (k.toList <:+: (strToLower (t.getD "")).toList)) := by
    apply List.filter_congr
    intro k _
    exact strIncludes_eq_decide _ k
  refine ⟨?_, ?_⟩
  · unfold analyzePufa analyzePufaSpecRef
    simp only [hm]
    congr 1
    cases v with
    | some x =>
        refine if_congr Iff.rfl rfl (if_congr Iff.rfl rfl (if_congr ?_ rfl rfl))
        exact List.length_pos
    | none =>
        refine if_congr List.length_pos rfl (if_congr ?_ rfl rfl)
        simp only [Bool.or_eq_true, strIncludes_iff, decide_eq_true_eq, or_assoc]
  · exact List.filter_sublist _

/-! ## Correctness of the lookup loop -/

theorem firstUsable_ge (net : Nat → EpResult) :
    ∀ (eps : List Endpoint) (i k : Nat) (p : ParsedProduct) (s : String),
      firstUsable net eps i = some (k, p, s) → i ≤ k
  | [], i, k, p, s, h => by simp [firstUsable] at h
  | ep :: rest, i, k, p, s, h => by
      rw [firstUsable] at h
      cases hA : attemptResult net i ep with
      | some v =>
          rw [hA] at h
          cases v with
          | mk p' s' =>
              simp only [Option.some.injEq, Prod.mk.injEq] at h
              omega
      | none =>
          rw [hA] at h
          have := firstUsable_ge net rest (i + 1) k p s h
          omega

/-- The loop embedding agrees with the specification view: the result is
the first usable endpoint's data, and the requests issued are exactly the
consecutive positions from the start up to and including the winning
endpoint (all of them when none is usable). -/
theorem lookupFrom_eq (net : Nat → EpResult) :
    ∀ (eps : List Endpoint) (i : Nat),
      (lookupFrom net eps i).1 = (firstUsable net eps i).map (fun x => x.2) ∧
      (lookupFrom net eps i).2 =
        (match firstUsable net eps i with
         | some (k, _, _) => List.range' i (k - i + 1)
         | none => List.range' i eps.length)
  | [], i => by simp [lookupFrom, firstUsable]
  | ep :: rest, i => by
      have IH := lookupFrom_eq net rest (i + 1)
      cases hnet : net i with
      | failed =>
          have hA : attemptResult net i ep = none := by
            simp [attemptResult, hnet]
          simp only [lookupFrom, firstUsable, hnet, hA]
          refine ⟨IH.1, ?_⟩
          rw [IH.2]
          cases hF : firstUsable net rest (i + 1) with
          | none => simp [List.range'_succ, List.length_cons]
          | some v =>
              obtain ⟨k, p, s⟩ := v
              have hk := firstUsable_ge net rest (i + 1) k p s hF
              have h1 : k - i + 1 = (k - (i + 1) + 1) + 1 := by omega
              simp [h1, List.range'_succ]
      | responded body =>
          cases hp : ep.parse body with
          | some p =>
              have hA : attemptResult net i ep = some (p, ep.source) := by
                simp [attemptResult, hnet, hp]
              simp only [lookupFrom, firstUsable, hnet, hp, hA]
              refine ⟨by simp, ?_⟩
              simp [Nat.sub_self, List.range'_one]
          | none =>
              have hA : attemptResult net i ep = none := by
                simp [attemptResult, hnet, hp]
              simp only [lookupFrom, firstUsable, hnet, hp, hA]
              refine ⟨IH.1, ?_⟩
              rw [IH.2]
              cases hF : firstUsable net rest (i + 1) with
              | none => simp [List.range'_succ, List.length_cons]
              | some v =>
                  obtain ⟨k, p, s⟩ := v
                  have hk := firstUsable_ge net rest (i + 1) k p s hF
                  have h1 : k - i + 1 = (k - (i + 1) + 1) + 1 := by omega
                  simp [h1, List.range'_succ]

/-! ## Store and enrichment lemmas -/

theorem applyChanges_id_of_none (h : HistoryItem) (c : Changes) (hc : c.id = none) :
    (applyChanges h c).id = h.id := by
  simp [applyChanges, hc]

theorem updateItems_store_mem (id : String) (c : Changes) (l : List HistoryItem) :
    ∀ h ∈ (updateItems id c l).1,
      (∃ x ∈ l, (x.id == id) = true ∧ h = applyChanges x c) ∨
      ((h.id == id) = false ∧ h ∈ l) := by
  intro h hmem
  simp only [updateItems] at hmem
  obtain ⟨x, hx, hfx⟩ := List.mem_map.1 hmem
  by_cases hxid : (x.id == id) = true
  · exact Or.inl ⟨x, hx, hxid, by rw [← hfx, if_pos hxid]⟩
  · have hx2 : h = x := by rw [← hfx, if_neg hxid]
    subst hx2
    exact Or.inr ⟨by simpa using hxid, hx⟩

theorem updateItems_ids (id : String) (c : Changes) (hc : c.id = none)
    (l : List HistoryItem) :
    ((updateItems id c l).1).map (fun h => h.id) = l.map (fun h => h.id) := by
  simp only [updateItems]
  rw [List.map_map]
  apply List.map_congr_left
  intro h _
  by_cases hh : (h.id == id) = true
  · simp only [Function.comp_apply, hh, if_true]
    exact applyChanges_id_of_none h c hc
  · rw [Bool.not_eq_true] at hh
    simp only [Function.comp_apply, hh, Bool.false_eq_true, if_false]

theorem enrich_eq_of_truthy (net : Nat → EpResult) (item : HistoryItem)
    (s : List HistoryItem) (hbar : strTruthy item.barcodeData = true) :
    enrich net item s =
      (match (lookupFrom net endpoints 0).1 with
       | none =>
           ⟨(updateItems item.id notFoundChange
               (updateItems item.id pendingChange s).1).1,
            (updateItems item.id notFoundChange
               (updateItems item.id pendingChange s).1).2,
            (lookupFrom net endpoints 0).2⟩
       | some (p, src) =>
           ⟨(updateItems item.id (foundChanges item p src)
               (updateItems item.id pendingChange s).1).1,
            (updateItems item.id (foundChanges item p src)
               (updateItems item.id pendingChange s).1).2,
            (lookupFrom net endpoints 0).2⟩) := by
  unfold enrich
  rw [hbar]
  rfl

theorem enrich_requests_eq (net : Nat → EpResult) (item : HistoryItem)
    (s : List HistoryItem) (hbar : strTruthy item.barcodeData = true) :
    (enrich net item s).requests = (lookupFrom net endpoints 0).2 := by
  rw [enrich_eq_of_truthy net item s hbar]
  cases (lookupFrom net endpoints 0).1 with
  | none => rfl
  | some v => obtain ⟨p, src⟩ := v; rfl

theorem enrich_ids (net : Nat → EpResult) (item : HistoryItem)
    (s : List HistoryItem) :
    ((enrich net item s).store).map (fun h => h.id) = s.map (fun h => h.id) := by
  by_cases hbar : strTruthy item.barcodeData = true
  · rw [enrich_eq_of_truthy net item s hbar]
    cases (lookupFrom net endpoints 0).1 with
    | none =>
        show ((updateItems item.id notFoundChange
            (updateItems item.id pendingChange s).1).1).map (fun h => h.id) = _
        rw [updateItems_ids _ _ rfl, updateItems_ids _ _ rfl]
    | some v =>
        obtain ⟨p, src⟩ := v
        show ((updateItems item.id (foundChanges item p src)
            (updateItems item.id pendingChange s).1).1).map (fun h => h.id) = _
        rw [updateItems_ids _ _ rfl, updateItems_ids _ _ rfl]
  · unfold enrich
    rw [Bool.not_eq_true] at hbar
    rw [hbar]
    rfl

theorem firstUsable_eq_none (net : Nat → EpResult) :
    ∀ (eps : List Endpoint) (i : Nat),
      (∀ j ep, eps[j]? = some ep → attemptResult net (i + j) ep = none) →
      firstUsable net eps i = none
  | [], _, _ => rfl
  | ep :: rest, i, h => by
      rw [firstUsable]
      have h0 : attemptResult net i ep = none := by
        have := h 0 ep (by simp)
        simpa using this
      rw [h0]
      refine firstUsable_eq_none net rest (i + 1) (fun j e hj => ?_)
      have := h (j + 1) e (by simpa using hj)
      have harith : i + (j + 1) = (i + 1) + j := by omega
      rwa [harith] at this

theorem firstUsable_lt (net : Nat → EpResult) :
    ∀ (eps : List Endpoint) (i k : Nat) (p : ParsedProduct) (s : String),
      firstUsable net eps i = some (k, p, s) → k < i + eps.length
  | [], i, k, p, s, h => by simp [firstUsable] at h
  | ep :: rest, i, k, p, s, h => by
      rw [firstUsable] at h
      cases hA : attemptResult net i ep with
      | some v =>
          rw [hA] at h
          obtain ⟨p', s'⟩ := v
          simp only [Option.some.injEq, Prod.mk.injEq] at h
          simp only [List.length_cons]
          omega
      | none =>
          rw [hA] at h
          have := firstUsable_lt net rest (i + 1) k p s h
          simp only [List.length_cons]
          omega

/-! ## C10: enrichment of a manual entry is a no-op -/

/-- C10: for a history item with no `barcodeData` (a manual entry), the
enrichment function returns immediately: no store update, no returned
record, and no network request is issued (so no `lookupStatus` value is
ever written by the attempt). -/
theorem enrich_no_barcode (net : Nat → EpResult) (item : HistoryItem)
    (s : List HistoryItem) (hb : item.barcodeData = none) :
    enrich net item s = ⟨s, none, []⟩ := by
  unfold enrich
  rw [hb]
  rfl

theorem enrich_no_barcode_witness :
    enrich netFail (baseItem "manual") [baseItem "manual"] =
      ⟨[baseItem "manual"], none, []⟩ :=
  enrich_no_barcode netFail (baseItem "manual") [baseItem "manual"] rfl

/-! ## C4: a fully failed lookup only sets `lookupStatus` -/

/-- C4: when every endpoint fails or yields no usable data, the attempt
rewrites matching records to `lookupStatus = not_found` and changes
nothing else: the store equals a per-record update touching only
`lookupStatus`, and in particular every record's `pufaFlag` (risk tier) is
unchanged. -/
theorem enrich_all_fail (net : Nat → EpResult) (item : HistoryItem)
    (s : List HistoryItem) (hbar : strTruthy item.barcodeData = true)
    (hfail : ∀ j ep, endpoints[j]? = some ep → attemptResult net j ep = none) :
    (enrich net item s).store =
      s.map (fun h => if h.id == item.id
        then { h with lookupStatus := some .not_found } else h) ∧
    ((enrich net item s).store).map (fun h => h.pufaFlag) =
      s.map (fun h => h.pufaFlag) := by
  have hfu : firstUsable net endpoints 0 = none :=
    firstUsable_eq_none net endpoints 0 (fun j ep hj => by simpa using hfail j ep hj)
  have hr : (lookupFrom net endpoints 0).1 = none := by
    rw [(lookupFrom_eq net endpoints 0).1, hfu]
    rfl
  have hstore : (enrich net item s).store =
      s.map (fun h => if h.id == item.id
        then { h with lookupStatus := some .not_found } else h) := by
    rw [enrich_eq_of_truthy net item s hbar]
    rw [hr]
    show ((updateItems item.id notFoundChange
        (updateItems item.id pendingChange s).1).1) = _
    simp only [updateItems]
    rw [List.map_map]
    apply List.map_congr_left
    intro h _
    by_cases hh : (h.id == item.id) = true
    · rw [Function.comp_apply, if_pos hh,
        if_pos (show ((applyChanges h pendingChange).id == item.id) = true from hh),
        if_pos hh]
      rfl
    · rw [Bool.not_eq_true] at hh
      simp only [Function.comp_apply, hh, Bool.false_eq_true, if_false]
  refine ⟨hstore, ?_⟩
  rw [hstore, List.map_map]
  apply List.map_congr_left
  intro h _
  by_cases hh : (h.id == item.id) = true
  · simp only [Function.comp_apply, hh, if_true]
  · rw [Bool.not_eq_true] at hh
    simp only [Function.comp_apply, hh, Bool.false_eq_true, if_false]

theorem enrich_all_fail_witness :
    (enrich netFail (scanItem "X" 0) [scanItem "X" 0]).store =
      [{ scanItem "X" 0 with lookupStatus := some .not_found }] ∧
    ((enrich netFail (scanItem "X" 0) [scanItem "X" 0]).store).map
        (fun h => h.pufaFlag) = [some .unknown] := by
  have h := enrich_all_fail netFail (scanItem "X" 0) [scanItem "X" 0]
    (by decide) (fun j ep _ => rfl)
  refine ⟨h.1.trans (by decide), (h.2.trans (by decide))⟩

/-! ## C2: endpoints are tried in order, once each, stopping at the first
usable result -/

/-- C2: under any network oracle, the lookup issues requests to the
configured endpoints strictly in list order and at most once each (the
request trace is `[0, 1, ..., k]` for the winning position `k`, or all
positions when no endpoint is usable — `Nodup` and bounded by the number
of endpoints); a failed or unusable endpoint is skipped; the loop result
is exactly the first usable endpoint's parse; and when some endpoint wins,
every stored record with the item's id carries that endpoint's source
identifier and status `found`. -/
theorem lookup_endpoint_order (net : Nat → EpResult) (item : HistoryItem)
    (s : List HistoryItem) (hbar : strTruthy item.barcodeData = true) :
    (enrich net item s).requests =
      (match firstUsable net endpoints 0 with
       | some (k, _, _) => List.range (k + 1)
       | none => List.range endpoints.length) ∧
    (enrich net item s).requests.Nodup ∧
    (enrich net item s).requests.length ≤ endpoints.length ∧
    (lookupFrom net endpoints 0).1 = (firstUsable net endpoints 0).map (fun x => x.2) ∧
    (∀ k p src, firstUsable net endpoints 0 = some (k, p, src) →
      ∀ h ∈ (enrich net item s).store, h.id = item.id →
        h.lookupSource = some src ∧ h.lookupStatus = some .found) := by
  have hreq : (enrich net item s).requests =
      (match firstUsable net endpoints 0 with
       | some (k, _, _) => List.range (k + 1)
       | none => List.range endpoints.length) := by
    rw [enrich_requests_eq net item s hbar, (lookupFrom_eq net endpoints 0).2]
    cases hfu : firstUsable net endpoints 0 with
    | none => rw [List.range_eq_range']
    | some v =>
        obtain ⟨k, p, src⟩ := v
        simp [List.range_eq_range']
  refine ⟨hreq, ?_, ?_, (lookupFrom_eq net endpoints 0).1, ?_⟩
  · rw [hreq]
    cases firstUsable net endpoints 0 with
    | none => simp [List.nodup_range]
    | some v => obtain ⟨k, p, src⟩ := v; simp [List.nodup_range]
  · rw [hreq]
    cases hfu : firstUsable net endpoints 0 with
    | none => simp
    | some v =>
        obtain ⟨k, p, src⟩ := v
        have := firstUsable_lt net endpoints 0 k p src hfu
        simpa using this
  · intro k p src hfu h hmem hid
    have hr : (lookupFrom net endpoints 0).1 = some (p, src) := by
      rw [(lookupFrom_eq net endpoints 0).1, hfu]
      rfl
    rw [enrich_eq_of_truthy net item s hbar, hr] at hmem
    have hmem2 : h ∈ (updateItems item.id (foundChanges item p src)
        (updateItems item.id pendingChange s).1).1 := hmem
    rcases updateItems_store_mem _ _ _ h hmem2 with ⟨x, _, _, rfl⟩ | ⟨hne, _⟩
    · exact ⟨rfl, rfl⟩
    · rw [hid] at hne
      simp at hne

theorem lookup_endpoint_order_witness :
    (enrich net01 (scanItem "X" 0) [scanItem "X" 0]).requests = [0, 1] ∧
    (enrich net01 (scanItem "X" 0) [scanItem "X" 0]).store.map
        (fun h => (h.lookupSource, h.lookupStatus)) =
      [(some "OFF v2 us", some .found)] := by
  have h := lookup_endpoint_order net01 (scanItem "X" 0) [scanItem "X" 0] (by decide)
  refine ⟨h.1.trans (by decide), ?_⟩
  decide

/-! ## C5: `add` prepends and caps the store at 200 -/

/-- C5: `add(r)` prepends `r` and keeps the first 199 existing records in
their relative order; the dropped records are exactly the trailing
(oldest) ones (`addItems r s ++ s.drop 199 = r :: s`); the result never
exceeds 200 records; and, starting from a store within the cap, every
store operation stays within the cap. -/
theorem add_caps_at_200 (s : List HistoryItem) (r : HistoryItem)
    (hs : s.length ≤ 200) :
    addItems r s = r :: s.take 199 ∧
    addItems r s ++ s.drop 199 = r :: s ∧
    (addItems r s).length ≤ 200 ∧
    (∀ id, (toggleItems id s).length ≤ 200) ∧
    (∀ id c, ((updateItems id c s).1).length ≤ 200) ∧
    (∀ id, (removeItems id s).length ≤ 200) := by
  have h1 : addItems r s = r :: s.take 199 := rfl
  refine ⟨h1, ?_, ?_, ?_, ?_, ?_⟩
  · rw [h1, List.cons_append, List.take_append_drop]
  · rw [h1]
    simp only [List.length_cons, List.length_take]
    omega
  · intro id
    simpa [toggleItems] using hs
  · intro id c
    simpa [updateItems] using hs
  · intro id
    exact le_trans (List.length_filter_le _ _) hs

theorem add_caps_at_200_witness :
    addItems (baseItem "w") [baseItem "x"] = [baseItem "w", baseItem "x"] ∧
    (addItems (baseItem "w") [baseItem "x"]).length ≤ 200 := by
  have h := add_caps_at_200 [baseItem "x"] (baseItem "w") (by decide)
  exact ⟨h.1.trans (by decide), h.2.2.1⟩

/-! ## C9: toggling a favorite twice -/

/-- C9 fails as stated on a store holding two records with the same id and
no stored `isFavorite`: after two toggles the second (non-returned)
matching record has changed from an absent `isFavorite` to an explicit
`false`, so not every other record is left unchanged. -/
theorem toggle_twice_counterexample :
    toggleItems "a" (toggleItems "a" [baseItem "a", baseItem "a"]) =
      [{ baseItem "a" with isFavorite := some false },
       { baseItem "a" with isFavorite := some false }] ∧
    ({ baseItem "a" with isFavorite := some false } : HistoryItem) ≠ baseItem "a" := by
  decide

/-- C9 amended: applying `toggleFavorite(id)` twice restores, for every
record whose id matches, the observable `isFavorite` value (defaulting to
false when absent — a record with the field absent ends with an explicit
`false`); every field other than `isFavorite` of every record, and every
record with a different id, is unchanged. -/
theorem toggle_twice_restores (s : List HistoryItem) (id : String) :
    toggleItems id (toggleItems id s) =
      s.map (fun h => if h.id == id
        then { h with isFavorite := some (h.isFavorite.getD false) } else h) ∧
    (toggleItems id (toggleItems id s)).map (fun h => h.isFavorite.getD false) =
      s.map (fun h => h.isFavorite.getD false) ∧
    (toggleItems id (toggleItems id s)).map (fun h => { h with isFavorite := none }) =
      s.map (fun h => { h with isFavorite := none }) := by
  have h1 : toggleItems id (toggleItems id s) =
      s.map (fun h => if h.id == id
        then { h with isFavorite := some (h.isFavorite.getD false) } else h) := by
    unfold toggleItems
    rw [List.map_map]
    apply List.map_congr_left
    intro h _
    by_cases hh : (h.id == id) = true
    · simp only [Function.comp_apply, hh, if_true]
      simp [Bool.not_not]
    · rw [Bool.not_eq_true] at hh
      simp only [Function.comp_apply, hh, Bool.false_eq_true, if_false]
  refine ⟨h1, ?_, ?_⟩
  · rw [h1, List.map_map]
    apply List.map_congr_left
    intro h _
    by_cases hh : (h.id == id) = true
    · simp only [Function.comp_apply, hh, if_true, Option.getD_some]
    · rw [Bool.not_eq_true] at hh
      simp only [Function.comp_apply, hh, Bool.false_eq_true, if_false]
  · rw [h1, List.map_map]
    apply List.map_congr_left
    intro h _
    by_cases hh : (h.id == id) = true
    · simp only [Function.comp_apply, hh, if_true, Option.getD_some]
    · rw [Bool.not_eq_true] at hh
      simp only [Function.comp_apply, hh, Bool.false_eq_true, if_false]

/-! ## C6: `updateById` merge semantics -/

/-- C6 fails as stated: (1) on a store holding two records with the same
id, `update` merges the changes into both, so not every other record is
left unchanged; (2) when the partial itself rewrites the id, `find` on the
new list misses and `none` is returned although the id was present. -/
theorem updateById_counterexample :
    ((updateItems "a" nameChange [baseItem "a", baseItem "a"]).1.getLast? =
      some { baseItem "a" with name := some "N" }) ∧
    ({ baseItem "a" with name := some "N" } : HistoryItem) ≠ baseItem "a" ∧
    ((updateItems "a" idChange [baseItem "a"]).2 = none) ∧
    (baseItem "a").id = "a" := by
  decide

/-- C6 amended: provided at most one record carries the id and the partial
does not rewrite the id itself, `updateById` behaves as claimed: an absent
id is a no-op returning `none`; a present id gets exactly the supplied
keys merged (`applyChanges` overwrites a field precisely when the key is
present, keeping every other field), every other record is unchanged, and
the updated record is returned.  (In general the code merges into every
record whose id matches and returns the first match of the new list.) -/
theorem updateById_merge (s : List HistoryItem) (id : String) (c : Changes)
    (hcid : c.id = none) :
    ((∀ h ∈ s, h.id ≠ id) → updateItems id c s = (s, none)) ∧
    (∀ pre h post, s = pre ++ h :: post → h.id = id →
      (∀ x ∈ pre, x.id ≠ id) → (∀ x ∈ post, x.id ≠ id) →
      updateItems id c s = (pre ++ applyChanges h c :: post, some (applyChanges h c))) ∧
    (∀ h : HistoryItem,
      (applyChanges h c).id = h.id ∧
      (applyChanges h c).name = c.name.getD h.name ∧
      (applyChanges h c).barcodeData = c.barcodeData.getD h.barcodeData ∧
      (applyChanges h c).scannedAt = c.scannedAt.getD h.scannedAt ∧
      (applyChanges h c).isFavorite = c.isFavorite.getD h.isFavorite ∧
      (applyChanges h c).pufaFlag = c.pufaFlag.getD h.pufaFlag ∧
      (applyChanges h c).ingredients = c.ingredients.getD h.ingredients ∧
      (applyChanges h c).polyunsaturatedFatPer100g =
        c.polyunsaturatedFatPer100g.getD h.polyunsaturatedFatPer100g ∧
      (applyChanges h c).matchedSeedOils = c.matchedSeedOils.getD h.matchedSeedOils ∧
      (applyChanges h c).nutriments = c.nutriments.getD h.nutriments ∧
      (applyChanges h c).lookupStatus = c.lookupStatus.getD h.lookupStatus ∧
      (applyChanges h c).lookupSource = c.lookupSource.getD h.lookupSource) := by
  have hmapid : ∀ (l : List HistoryItem), (∀ h ∈ l, h.id ≠ id) →
      l.map (fun h => if h.id == id then applyChanges h c else h) = l := by
    intro l
    induction l with
    | nil => intro _; rfl
    | cons x xs ih =>
        intro hl
        rw [List.map_cons, if_neg (by simpa using hl x (List.mem_cons_self x xs)),
          ih (fun y hy => hl y (List.mem_cons_of_mem x hy))]
  refine ⟨?_, ?_, ?_⟩
  · intro hs
    have hm := hmapid s hs
    simp only [updateItems, hm]
    rw [List.find?_eq_none.2 (fun x hx => by simpa using hs x hx)]
  · intro pre h post hseq hid hpre hpost
    subst hseq
    have hmaps : (pre ++ h :: post).map
        (fun x => if x.id == id then applyChanges x c else x) =
        pre ++ applyChanges h c :: post := by
      rw [List.map_append, hmapid pre hpre, List.map_cons,
        if_pos (by simpa using hid), hmapid post hpost]
    have happ : (applyChanges h c).id = h.id := applyChanges_id_of_none h c hcid
    have hfind : (pre ++ applyChanges h c :: post).find? (fun x => x.id == id) =
        some (applyChanges h c) := by
      rw [List.find?_append, List.find?_eq_none.2 (fun x hx => by simpa using hpre x hx)]
      rw [List.find?_cons_of_pos]
      · rfl
      · simp [happ, hid]
    simp only [updateItems, hmaps, hfind]
  · intro h
    refine ⟨applyChanges_id_of_none h c hcid,
      rfl, rfl, rfl, rfl, rfl, rfl, rfl, rfl, rfl, rfl, rfl⟩

theorem updateById_merge_witness :
    updateItems "a" nameChange [baseItem "b", baseItem "a"] =
      ([baseItem "b", { baseItem "a" with name := some "N" }],
       some { baseItem "a" with name := some "N" }) := by
  have h := (updateById_merge [baseItem "b", baseItem "a"] "a" nameChange rfl).2.1
    [baseItem "b"] (baseItem "a") [] rfl rfl (by decide) (by decide)
  exact h.trans (by decide)

/-! ## C7: persistence failures are swallowed, not surfaced -/

/-- C7 fails as stated: when the durable write fails, `add` neither
persists the resulting collection (storage is left at its old value) nor
surfaces any error to its caller (the catch logs a console warning and
returns normally); only the in-memory view holds the new collection. -/
theorem persist_failure_counterexample :
    (addOp false (baseItem "a") ⟨[], [], 0⟩).2 = none ∧
    (addOp false (baseItem "a") ⟨[], [], 0⟩).1.memory = [baseItem "a"] ∧
    (addOp false (baseItem "a") ⟨[], [], 0⟩).1.storage ≠ [baseItem "a"] ∧
    (addOp false (baseItem "a") ⟨[], [], 0⟩).1.warnings = 1 := by
  decide

/-- C7 amended: every mutating store operation updates the in-memory view
optimistically to the intended resulting collection and attempts one
durable write of the full collection before returning; on success the
durable copy equals the new collection, on failure the durable copy is
unchanged and the error is caught and logged as a console warning — it is
never surfaced to the caller.  The in-memory view is never corrupted:
it equals the intended collection in either case. -/
theorem store_ops_persist (ok : Bool) (st : StoreSys) (item : HistoryItem)
    (id : String) (c : Changes) :
    ((addOp ok item st).1.memory = addItems item st.memory ∧
     (addOp ok item st).1.storage =
       (if ok then addItems item st.memory else st.storage) ∧
     (addOp ok item st).2 = none ∧
     (addOp ok item st).1.warnings = st.warnings + (if ok then 0 else 1)) ∧
    ((toggleOp ok id st).1.memory = toggleItems id st.memory ∧
     (toggleOp ok id st).1.storage =
       (if ok then toggleItems id st.memory else st.storage) ∧
     (toggleOp ok id st).2 = none ∧
     (toggleOp ok id st).1.warnings = st.warnings + (if ok then 0 else 1)) ∧
    ((updateOp ok id c st).1.memory = (updateItems id c st.memory).1 ∧
     (updateOp ok id c st).1.storage =
       (if ok then (updateItems id c st.memory).1 else st.storage) ∧
     (updateOp ok id c st).2 = none ∧
     (updateOp ok id c st).1.warnings = st.warnings + (if ok then 0 else 1)) ∧
    ((removeOp ok id st).1.memory = removeItems id st.memory ∧
     (removeOp ok id st).1.storage =
       (if ok then removeItems id st.memory else st.storage) ∧
     (removeOp ok id st).2 = none ∧
     (removeOp ok id st).1.warnings = st.warnings + (if ok then 0 else 1)) := by
  cases ok <;>
    simp [addOp, toggleOp, updateOp, removeOp, persistOp]

/-! ## C8: scanning the same barcode twice duplicates the id -/

/-- C8 fails as stated: starting from an empty store, running the scan
handler twice for the same barcode value produces two stored records with
that id — the second run does not update the first record, it prepends a
new one. -/
theorem scan_twice_counterexample :
    (onScanned netFail "X" 1 (onScanned netFail "X" 0 [])).countP
      (fun h => h.id == "X") = 2 := by
  decide

/-- C8 amended: record ids are not unique in reachable stores: for every
starting store and non-empty barcode value, running the scan handler twice
for that barcode (under any network behaviors) leaves at least two records
whose id is the barcode value — `add` never deduplicates and enrichment
updates never change ids. -/
theorem scan_twice_duplicate_ids (net1 net2 : Nat → EpResult) (b : String)
    (t1 t2 : Int) (s : List HistoryItem) (hb : b ≠ "") :
    2 ≤ (onScanned net2 b t2 (onScanned net1 b t1 s)).countP
      (fun h => h.id == b) := by
  have hbeq : (b == "") = false := by simpa using hb
  have hid1 : (scanItem b t1).id = b := by simp [scanItem, hbeq]
  have hid2 : (scanItem b t2).id = b := by simp [scanItem, hbeq]
  have hcnt : ∀ l : List HistoryItem,
      l.countP (fun h => h.id == b) =
        (l.map (fun h => h.id)).countP (fun x => x == b) := by
    intro l
    rw [List.countP_map]
    rfl
  have hS1 : (onScanned net1 b t1 s).map (fun h => h.id) =
      b :: ((s.map (fun h => h.id)).take 199) := by
    show ((enrich net1 (scanItem b t1)
        (addItems (scanItem b t1) s)).store).map (fun h => h.id) = _
    rw [enrich_ids]
    show (scanItem b t1 :: s.take 199).map (fun h => h.id) = _
    rw [List.map_cons, hid1, List.map_take]
  have hstep : (addItems (scanItem b t2) (onScanned net1 b t1 s)).map (fun h => h.id)
      = b :: b :: (((s.map (fun h => h.id)).take 199).take 198) := by
    show (scanItem b t2 :: (onScanned net1 b t1 s).take 199).map (fun h => h.id) = _
    rw [List.map_cons, hid2, List.map_take, hS1]
    rfl
  show 2 ≤ ((enrich net2 (scanItem b t2)
      (addItems (scanItem b t2) (onScanned net1 b t1 s))).store).countP
        (fun h => h.id == b)
  rw [hcnt, enrich_ids, hstep]
  simp only [List.countP_cons, beq_self_eq_true, if_true]
  omega

theorem scan_twice_duplicate_ids_witness :
    2 ≤ (onScanned netFail "Y" 1 (onScanned netFail "Y" 0 [])).countP
      (fun h => h.id == "Y") :=
  scan_twice_duplicate_ids netFail netFail "Y" 0 1 [] (by decide)

/-! ## C3: the parsers accept a response with no usable data -/

/-- C3 evaluated at the failing input `{"product": {"nutriments": {}}}`:
both parsers accept a response whose product has no name, no ingredient
text and an empty `nutriments` object — the mapped nutriments literal
always carries its 12 keys, so `Object.keys(...).length > 0` never fails
once `nutriments` is defined — and the client therefore stops at the
first endpoint instead of falling through. -/
theorem parsers_accept_empty_nutriments :
    (parseOffV2 emptyNutrimentsBody).isSome = true ∧
    (parseOffV2 emptyNutrimentsBody).map (fun p => p.name.isSome) = some false ∧
    (parseOffV2 emptyNutrimentsBody).map (fun p => p.ingredientsText.isSome) =
      some false ∧
    (parseOffV2 emptyNutrimentsBody).map
        (fun p => p.nutriments.map (fun l => l.countP (fun kv => kv.2.isSome))) =
      some (some 0) ∧
    (parseOffV2 emptyNutrimentsBody).map (fun p => p.nutriments.map List.length) =
      some (some 12) ∧
    (parseOffV0 emptyNutrimentsBodyV0).isSome = true ∧
    (lookupFrom (fun _ => .responded emptyNutrimentsBody) endpoints 0).2 = [0] := by
  refine ⟨rfl, rfl, rfl, ?_, ?_, rfl, ?_⟩ <;> rfl

end PufaCheck
